import Mathlib

/-!
# hodl-or-fold — verification of the round-resolution core

Shallow embedding of the backend of the `hodl-or-fold` game
(Cloudflare Worker + D1), covering:

* `packages/backend/src/db/price.ts` — the single-row Price Store
  (`roundPrice`, `getPriceFromDb`, `setPriceInDb`);
* `packages/backend/src/handlers/resolve.ts` — `tryResolve`, the
  two-condition resolution engine;
* `packages/backend/src/handlers/guesses.ts` — `createGuess`,
  `getGuessStatus`;
* `packages/backend/src/handlers/players.ts` — `createOrUpdatePlayer`;
* `packages/backend/src/cron/priceFetcher.ts` — `fetchBtcPrice`,
  `runPriceFetcher`.

Modelling conventions:

* JS numbers holding prices are modelled as exact rationals `ℚ`
  (the code's own policy is to round every stored price to 2 decimals
  precisely so that values behave like exact decimals);
* timestamps (`Date.now()`, `datetime('now')`, `guessed_at`, …) are
  modelled as integer milliseconds since the epoch (`ℤ`); the string
  timestamp `ts` carried alongside the price is kept opaque as `String`;
* the D1 database is a record of the three tables (`players`, `guesses`,
  single-row `price_feed`); SQL statements become list operations:
  `SELECT … LIMIT 1` / `.first` is `List.find?`, `UPDATE … WHERE` is a
  `List.map` guarded on the key, `INSERT` is an append;
* each handler is a pure function from the database (plus the clock and
  request data) to a result and the database after the call — returning
  the database unchanged is the embedding of "performs no write";
* a JS exception channel is an `Except`.
-/

namespace HodlOrFold

/-- `'up' | 'down'` from `packages/shared/src/index.ts`. -/
inductive Direction
  | up
  | down
  deriving DecidableEq, Repr

/-- `'pending' | 'resolved'`. -/
inductive GuessStatus
  | pending
  | resolved
  deriving DecidableEq, Repr

/-- `'correct' | 'wrong'`. -/
inductive GuessOutcome
  | correct
  | wrong
  deriving DecidableEq, Repr

/-- `'timer' | 'awaiting_price_change' | 'price_unavailable'`. -/
inductive PendingReason
  | timer
  | awaiting_price_change
  | price_unavailable
  deriving DecidableEq, Repr

/-- A row of the `players` table (migration `001_initial.sql`). -/
structure Player where
  id : String
  score : ℤ
  last_seen : ℤ
  created_at : ℤ
  deriving DecidableEq, Repr

/-- A row of the `guesses` table (migration `001_initial.sql`). -/
structure Guess where
  id : String
  player_id : String
  direction : Direction
  price_at_guess : ℚ
  guessed_at : ℤ
  resolved_at : Option ℤ
  price_at_resolve : Option ℚ
  outcome : Option GuessOutcome
  status : GuessStatus
  deriving DecidableEq, Repr

/-- The single row of the `price_feed` table (migration `002_price_feed.sql`):
key `'btc'`, a `usd` value and a string timestamp. -/
structure PriceRow where
  usd : ℚ
  ts : String
  deriving DecidableEq, Repr

/-- `PricePayload` from `packages/shared/src/index.ts`. -/
structure PricePayload where
  usd : ℚ
  ts : String
  deriving DecidableEq, Repr

/-- The D1 database: the three tables the backend uses.  `price_feed` is
`none` when the single `'btc'` row is absent. -/
structure DB where
  players : List Player
  guesses : List Guess
  price_feed : Option PriceRow
  deriving DecidableEq, Repr

/-- `roundPrice` from `db/price.ts`: `Math.round(usd * 100) / 100`.
JS `Math.round` rounds half-way cases up (towards `+∞`), which is exactly
Mathlib's `round` on `ℚ`. -/
def roundPrice (usd : ℚ) : ℚ :=
  (round (usd * 100) : ℤ) / 100

/-- `getPriceFromDb` from `db/price.ts`: `SELECT usd, ts FROM price_feed
WHERE k = 'btc'`; returns `null` when the row is absent or `usd` is the
`0` sentinel, otherwise the rounded price. -/
def getPriceFromDb (db : DB) : Option PricePayload :=
  match db.price_feed with
  | none => none
  | some row => if row.usd = 0 then none else some ⟨roundPrice row.usd, row.ts⟩

/-- `setPriceInDb` from `db/price.ts`: rounds, then `UPDATE price_feed SET
usd = ?, ts = ? WHERE k = 'btc'` (an SQL `UPDATE` of an absent row writes
nothing). -/
def setPriceInDb (db : DB) (payload : PricePayload) : DB :=
  match db.price_feed with
  | none => db
  | some _ => { db with price_feed := some ⟨roundPrice payload.usd, payload.ts⟩ }

/-- `SELECT * FROM guesses WHERE id = ? … .first()`. -/
def findGuess (db : DB) (guessId : String) : Option Guess :=
  db.guesses.find? (fun g => g.id == guessId)

/-- `SELECT … FROM players WHERE id = ? … .first()`. -/
def findPlayer (db : DB) (playerId : String) : Option Player :=
  db.players.find? (fun p => p.id == playerId)

/-- `SELECT … FROM guesses WHERE player_id = ? AND status = 'pending'
LIMIT 1 … .first()`. -/
def findPendingGuess (db : DB) (playerId : String) : Option Guess :=
  db.guesses.find? (fun g => g.player_id == playerId && g.status == GuessStatus.pending)

/-- The `UPDATE guesses SET status = 'resolved', outcome = ?,
price_at_resolve = ?, resolved_at = datetime('now') WHERE id = ?`
statement of `tryResolve`. -/
def updateGuessResolved (db : DB) (guessId : String) (outcome : GuessOutcome)
    (price : ℚ) (now : ℤ) : DB :=
  { db with guesses := db.guesses.map (fun g =>
      if g.id == guessId then
        { g with status := GuessStatus.resolved, outcome := some outcome,
                 price_at_resolve := some price, resolved_at := some now }
      else g) }

/-- The `UPDATE players SET score = score + ?, last_seen = datetime('now')
WHERE id = ?` statement of `tryResolve`. -/
def applyScoreDelta (db : DB) (playerId : String) (delta : ℤ) (now : ℤ) : DB :=
  { db with players := db.players.map (fun p =>
      if p.id == playerId then
        { p with score := p.score + delta, last_seen := now }
      else p) }

/-- `GuessStatusResponse` from `packages/shared/src/index.ts`. -/
structure GuessStatusResponse where
  id : String
  status : GuessStatus
  outcome : Option GuessOutcome
  score : Option ℤ
  currentPrice : Option ℚ
  reason : Option PendingReason
  secondsLeft : Option ℤ
  deriving DecidableEq, Repr

/-- `ROUND_SECONDS` from `handlers/resolve.ts`. -/
def ROUND_SECONDS : ℤ := 60

/-- `tryResolve` from `handlers/resolve.ts`, as a pure function of the
database and the clock.  `Except.error ()` is the `throw new Error('Guess
not found: …')`; a successful return carries the `GuessStatusResponse`
together with the database after the call.  `Math.floor((Date.now() -
new Date(guess.guessed_at).getTime()) / 1000)` is integer floor division
`Int.fdiv` by `1000`. -/
def tryResolve (db : DB) (now : ℤ) (guessId : String) :
    Except Unit (GuessStatusResponse × DB) :=
  match findGuess db guessId with
  | none => Except.error ()
  | some guess =>
    if guess.status = GuessStatus.resolved then
      -- Idempotent — already resolved
      let player := findPlayer db guess.player_id
      Except.ok
        ({ id := guess.id, status := GuessStatus.resolved, outcome := guess.outcome,
           score := player.map Player.score, currentPrice := guess.price_at_resolve,
           reason := none, secondsLeft := none }, db)
    else
      -- Condition 1: timer
      let secondsElapsed : ℤ := (now - guess.guessed_at).fdiv 1000
      if secondsElapsed < ROUND_SECONDS then
        Except.ok
          ({ id := guess.id, status := GuessStatus.pending, outcome := none,
             score := none, currentPrice := none,
             reason := some PendingReason.timer,
             secondsLeft := some (ROUND_SECONDS - secondsElapsed) }, db)
      else
        -- Condition 2: price must have moved
        match getPriceFromDb db with
        | none =>
          Except.ok
            ({ id := guess.id, status := GuessStatus.pending, outcome := none,
               score := none, currentPrice := none,
               reason := some PendingReason.price_unavailable,
               secondsLeft := none }, db)
        | some dbPrice =>
          let currentPrice := dbPrice.usd
          if currentPrice = guess.price_at_guess then
            Except.ok
              ({ id := guess.id, status := GuessStatus.pending, outcome := none,
                 score := none, currentPrice := none,
                 reason := some PendingReason.awaiting_price_change,
                 secondsLeft := none }, db)
          else
            -- Both conditions met — resolve
            let correct : Bool :=
              (guess.direction == Direction.up
                 && decide (guess.price_at_guess < currentPrice))
              || (guess.direction == Direction.down
                 && decide (currentPrice < guess.price_at_guess))
            let outcome := if correct then GuessOutcome.correct else GuessOutcome.wrong
            let scoreDelta : ℤ := if correct then 1 else -1
            let db1 := updateGuessResolved db guessId outcome currentPrice now
            let db2 := applyScoreDelta db1 guess.player_id scoreDelta now
            let player := findPlayer db2 guess.player_id
            Except.ok
              ({ id := guess.id, status := GuessStatus.resolved, outcome := some outcome,
                 score := player.map Player.score, currentPrice := some currentPrice,
                 reason := none, secondsLeft := none }, db2)

/-- `CreateGuessResponse` from `packages/shared/src/index.ts`. -/
structure CreateGuessResponse where
  id : String
  priceAtGuess : ℚ
  guessedAt : ℤ
  deriving DecidableEq, Repr

/-- The possible HTTP outcomes of `createGuess` in `handlers/guesses.ts`:
`201` with the created guess, `400 Invalid request body`, `409 Guess
already in progress {existingGuessId}`, `503 Price unavailable`. -/
inductive CreateGuessResult
  | created (resp : CreateGuessResponse)
  | invalidBody
  | guessInProgress (existingGuessId : String)
  | priceUnavailable
  deriving DecidableEq, Repr

/-- `!['up','down'].includes(body.direction)` — the request carries the
direction as a string. -/
def parseDirection (s : String) : Option Direction :=
  if s = "up" then some Direction.up
  else if s = "down" then some Direction.down
  else none

/-- The wire string of a direction, as the client sends it. -/
def dirString : Direction → String
  | Direction.up => "up"
  | Direction.down => "down"

/-- `createGuess` from `handlers/guesses.ts`.  `freshId` stands for the
server-generated row id (`DEFAULT (lower(hex(randomblob(16))))`), `now`
for the insert's `guessed_at = datetime('now')`. -/
def createGuess (db : DB) (playerId directionStr : String) (now : ℤ)
    (freshId : String) : CreateGuessResult × DB :=
  if playerId = "" then (CreateGuessResult.invalidBody, db)
  else
    match parseDirection directionStr with
    | none => (CreateGuessResult.invalidBody, db)
    | some direction =>
      -- Reject if player already has an unresolved guess
      match findPendingGuess db playerId with
      | some existing => (CreateGuessResult.guessInProgress existing.id, db)
      | none =>
        -- Lock the entry price server-side from D1 — never trust the client's price
        match getPriceFromDb db with
        | none => (CreateGuessResult.priceUnavailable, db)
        | some dbPrice =>
          let newGuess : Guess :=
            { id := freshId, player_id := playerId, direction := direction,
              price_at_guess := dbPrice.usd, guessed_at := now,
              resolved_at := none, price_at_resolve := none,
              outcome := none, status := GuessStatus.pending }
          (CreateGuessResult.created ⟨freshId, dbPrice.usd, now⟩,
           { db with guesses := db.guesses ++ [newGuess] })

/-- The number of PENDING rows a player owns. -/
def pendingCount (db : DB) (playerId : String) : ℕ :=
  (db.guesses.filter
    (fun g => g.player_id == playerId && g.status == GuessStatus.pending)).length

/-- The two ways a call awaited inside `getGuessStatus`'s `try` block can
throw: `tryResolve`'s own `Guess not found` error, or any D1 persistence
call rejecting (`env.DB.prepare(…).first()/run()` failing). -/
inductive ResolveExc
  | notFound
  | dbError
  deriving DecidableEq, Repr

/-- `tryResolve` as observed by its caller, with the persistence layer's
exception channel made explicit: when `dbFault` is true some awaited D1
call inside the resolution rejects, surfacing as a thrown `dbError`;
otherwise the call runs `tryResolve` as written. -/
def tryResolveExc (db : DB) (now : ℤ) (guessId : String) (dbFault : Bool) :
    Except ResolveExc (GuessStatusResponse × DB) :=
  if dbFault then Except.error ResolveExc.dbError
  else
    match tryResolve db now guessId with
    | Except.error _ => Except.error ResolveExc.notFound
    | Except.ok x => Except.ok x

/-- `getGuessStatus` from `handlers/guesses.ts`, reduced to the HTTP status
code it answers: `try { return json(await tryResolve(…)) } catch (err)
{ return jsonError('Guess not found', 404) }` — every exception, whatever
its kind, is caught and mapped to `404`. -/
def getGuessStatusCode (db : DB) (now : ℤ) (guessId : String) (dbFault : Bool) : ℕ :=
  match tryResolveExc db now guessId dbFault with
  | Except.ok _ => 200
  | Except.error _ => 404

/-- `PlayerResponse` from `packages/shared/src/index.ts`. -/
structure PlayerResponse where
  id : String
  score : ℤ
  pendingGuess : Option Guess
  deriving DecidableEq, Repr

/-- The possible HTTP outcomes of `createOrUpdatePlayer` in
`handlers/players.ts`: `200` with the player view, `400 Missing or invalid
player id`, `503 Game is at capacity {activeUsers, maxUsers}`. -/
inductive AdmitResult
  | ok (resp : PlayerResponse)
  | invalidId
  | atCapacity (activeUsers : ℕ) (maxUsers : ℤ)
  deriving DecidableEq, Repr

/-- `ACTIVE_WINDOW_HOURS` from `handlers/players.ts`. -/
def ACTIVE_WINDOW_HOURS : ℤ := 24

/-- The `INSERT INTO players (id, score, last_seen, created_at) VALUES
(?, 0, datetime('now'), datetime('now')) ON CONFLICT(id) DO UPDATE SET
last_seen = datetime('now')` upsert of `createOrUpdatePlayer`. -/
def upsertPlayer (db : DB) (playerId : String) (now : ℤ) : DB :=
  if (findPlayer db playerId).isSome then
    { db with players := db.players.map (fun p =>
        if p.id == playerId then { p with last_seen := now } else p) }
  else
    { db with players := db.players ++ [⟨playerId, 0, now, now⟩] }

/-- The UTC calendar-day index (whole days since the epoch) of a
millisecond timestamp.  Both timestamp formats in play render the same
zero-padded `YYYY-MM-DD` date in their first ten bytes, so comparing those
dates chronologically is comparing these day indices. -/
def utcDay (t : ℤ) : ℤ := t.fdiv 86400000

/-- The SQL predicate `last_seen > ?` of `createOrUpdatePlayer`, as D1 /
SQLite actually evaluates it.  The stored `last_seen` is a
`datetime('now')` string (`YYYY-MM-DD HH:MM:SS`) while the bound cutoff is
a `Date.toISOString()` string (`YYYY-MM-DDTHH:MM:SS.sssZ`), and SQLite
compares TEXT byte-wise: a differing date decides in date order, and on
equal dates the stored string is always the smaller because its 11th byte
is a space (0x20) against the cutoff's `'T'` (0x54).  The predicate
therefore holds exactly when the stored timestamp's UTC calendar day is
strictly later than the cutoff's. -/
def sqliteAfterIsoCutoff (lastSeen cutoff : ℤ) : Bool :=
  decide (utcDay cutoff < utcDay lastSeen)

/-- `SELECT COUNT(*) FROM players WHERE last_seen > ? AND id != ?` with
`?` bound to `toISOString(now − 24h)`: the requesting player is excluded
from the count, and `>` is the byte-wise text comparison above — so the
players counted are those last seen since UTC midnight of the current
day, not those within a rolling 24-hour window. -/
def activeOthersCount (db : DB) (playerId : String) (now : ℤ) : ℕ :=
  (db.players.filter (fun p =>
    sqliteAfterIsoCutoff p.last_seen (now - ACTIVE_WINDOW_HOURS * 3600 * 1000)
      && p.id != playerId)).length

/-- `createOrUpdatePlayer` from `handlers/players.ts`.  `maxPlayers` is
`parseInt(env.MAX_PLAYERS ?? '100', 10)`.  After the upsert the player row
necessarily exists; the source reads it back with a non-null assertion
(`player!`), embedded here as `Option.getD` whose default is provably
never used. -/
def createOrUpdatePlayer (db : DB) (playerId : String) (maxPlayers : ℤ)
    (now : ℤ) : AdmitResult × DB :=
  if playerId = "" then (AdmitResult.invalidId, db)
  else
    let activeCount := activeOthersCount db playerId now
    if (activeCount : ℤ) ≥ maxPlayers then
      (AdmitResult.atCapacity activeCount maxPlayers, db)
    else
      let db1 := upsertPlayer db playerId now
      let player := (findPlayer db1 playerId).getD ⟨playerId, 0, now, now⟩
      let pendingGuess := findPendingGuess db1 playerId
      (AdmitResult.ok ⟨player.id, player.score, pendingGuess⟩, db1)

/-- What one external price source yields, seen from `fetchBtcPrice`:
`fail` covers a network error, a non-`ok` HTTP status and a malformed
payload (`parseFloat` → `NaN`); `value p` is a parsed numeric price. -/
inductive SourceOutcome
  | fail
  | value (p : ℚ)
  deriving DecidableEq, Repr

/-- One `try { … if (price > 0) return price } catch { … }` block of
`fetchBtcPrice`: the source contributes its price exactly when it parsed
and is strictly positive. -/
def sourceResult : SourceOutcome → Option ℚ
  | SourceOutcome.fail => none
  | SourceOutcome.value p => if 0 < p then some p else none

/-- `fetchBtcPrice` from `cron/priceFetcher.ts`: Kraken, then Binance,
then CoinGecko, each tried in order, the first strictly positive parsed
price returned; `throw new Error('All price sources failed')` when all
three fall through, embedded as `Except.error ()`. -/
def fetchBtcPrice (kraken binance gecko : SourceOutcome) : Except Unit ℚ :=
  match sourceResult kraken with
  | some price => Except.ok price
  | none =>
    match sourceResult binance with
    | some price => Except.ok price
    | none =>
      match sourceResult gecko with
      | some price => Except.ok price
      | none => Except.error ()

/-- The external world of one iteration of the cron loop: what each of the
three sources returns, and the `new Date().toISOString()` timestamp. -/
structure CronIteration where
  kraken : SourceOutcome
  binance : SourceOutcome
  gecko : SourceOutcome
  ts : String
  deriving DecidableEq, Repr

/-- One iteration of the loop body of `runPriceFetcher`: `try { const
price = await fetchBtcPrice(); await setPriceInDb(env.DB, { usd: price,
ts }) } catch (e) { console.error(…) }` — a failed fetch only logs and
leaves the store untouched. -/
def runIteration (db : DB) (it : CronIteration) : DB :=
  match fetchBtcPrice it.kraken it.binance it.gecko with
  | Except.ok price => setPriceInDb db ⟨price, it.ts⟩
  | Except.error _ => db

/-- `runPriceFetcher` from `cron/priceFetcher.ts`: the `for (let i = 0;
i < CRON_ITERATIONS; i++)` loop over the iterations' external outcomes
(the sleep between iterations has no effect on the store). -/
def runPriceFetcher (db : DB) (its : List CronIteration) : DB :=
  its.foldl runIteration db

/-- Repeated `tryResolve` polling of one guess at a list of successive
times, threading the database; a thrown `Guess not found` leaves the
database as it was. -/
def resolveMany (db : DB) (guessId : String) (times : List ℤ) : DB :=
  times.foldl (fun d t =>
    match tryResolve d t guessId with
    | Except.ok (_, d2) => d2
    | Except.error _ => d) db

/-- `const scoreDelta = correct ? 1 : -1` of `tryResolve`, as a function of
the outcome. -/
def scoreDelta : GuessOutcome → ℤ
  | GuessOutcome.correct => 1
  | GuessOutcome.wrong => -1

/-!  ## Concrete fixtures

Small databases used to instantiate the theorems on concrete inputs. -/

/-- A player with score 3, last seen at the epoch. -/
def wPlayer : Player := ⟨"p1", 3, 0, 0⟩

/-- A pending RISE guess by `p1`, entry price 94230, submitted at the epoch. -/
def wGuessUp : Guess :=
  ⟨"g1", "p1", Direction.up, 94230, 0, none, none, none, GuessStatus.pending⟩

/-- A price-feed row holding 94731. -/
def wRow : PriceRow := ⟨94731, "t1"⟩

/-- One player, one pending guess, price 94731 (above the 94230 entry). -/
def wDB : DB := ⟨[wPlayer], [wGuessUp], some wRow⟩

/-- An already-resolved guess by `p1`. -/
def wGuessResolved : Guess :=
  ⟨"g2", "p1", Direction.up, 94230, 0, some 70000, some 94431,
   some GuessOutcome.correct, GuessStatus.resolved⟩

/-- One player, one resolved guess. -/
def wDBResolved : DB := ⟨[wPlayer], [wGuessResolved], some wRow⟩

/-- A price-feed row equal to the 94230 entry price. -/
def wRowEq : PriceRow := ⟨94230, "t1"⟩

/-- One player, one pending guess, current price equal to the entry price. -/
def wDBEq : DB := ⟨[wPlayer], [wGuessUp], some wRowEq⟩

/-- Two players, both last seen at time 1000. -/
def cDBFull : DB := ⟨[⟨"p1", 0, 1000, 0⟩, ⟨"p2", 0, 1000, 0⟩], [], none⟩

/-- One player last seen at 1970-01-01 23:00 UTC (82800000 ms). -/
def cDBMidnight : DB := ⟨[⟨"q1", 0, 82800000, 0⟩], [], none⟩

/-- The guess row created by submitting `up` as player `p2` against `wDB`. -/
def wNewGuess : Guess :=
  ⟨"g9", "p2", Direction.up, 94731, 5, none, none, none, GuessStatus.pending⟩

/-- `wDB` after that submission. -/
def wDBAfterCreate : DB := { wDB with guesses := wDB.guesses ++ [wNewGuess] }

/-!  ## Helper lemmas  -/

/-- The timer guard of `tryResolve`: fewer than 60 whole seconds have
elapsed exactly when fewer than 60000 ms have. -/
lemma fdiv1000_lt_iff (x : ℤ) : x.fdiv 1000 < 60 ↔ x < 60000 := by
  rw [Int.fdiv_eq_ediv _ (by norm_num)]
  omega

lemma secondsLeft_pos {x : ℤ} (h0 : 0 ≤ x) (h : x < 60000) :
    0 < 60 - x.fdiv 1000 := by
  rw [Int.fdiv_eq_ediv _ (by norm_num)]
  omega

/-- `find?` over a list mapped by a guarded update commutes with the update
whenever the update does not change the search key. -/
lemma find?_map_ite {α : Type} (l : List α) (p : α → Bool) (f : α → α)
    (hp : ∀ a, p (f a) = p a) :
    (l.map (fun a => if p a then f a else a)).find? p = (l.find? p).map f := by
  induction l with
  | nil => rfl
  | cons a t ih =>
    by_cases h : p a = true
    · simp [List.find?_cons, h, hp]
    · simp only [Bool.not_eq_true] at h
      simp [List.find?_cons, h, hp, ih]

/-- Reading back the resolved guess after the `UPDATE guesses … WHERE id = ?`. -/
lemma findGuess_updateGuessResolved (db : DB) (gid : String) (o : GuessOutcome)
    (pr : ℚ) (now : ℤ) :
    findGuess (updateGuessResolved db gid o pr now) gid =
      (findGuess db gid).map (fun g =>
        { g with status := GuessStatus.resolved, outcome := some o,
                 price_at_resolve := some pr, resolved_at := some now }) :=
  find?_map_ite db.guesses _ _ (fun _ => rfl)

/-- Reading back the player after the `UPDATE players … WHERE id = ?`. -/
lemma findPlayer_applyScoreDelta (db : DB) (pid : String) (delta now : ℤ) :
    findPlayer (applyScoreDelta db pid delta now) pid =
      (findPlayer db pid).map (fun p =>
        { p with score := p.score + delta, last_seen := now }) :=
  find?_map_ite db.players _ _ (fun _ => rfl)

lemma parseDirection_dirString (d : Direction) :
    parseDirection (dirString d) = some d := by
  cases d <;> rfl

/-- `find?` skips a prefix in which nothing matches. -/
lemma find?_append_of_none {α : Type} (l1 l2 : List α) (p : α → Bool)
    (h : l1.find? p = none) :
    (l1 ++ l2).find? p = l2.find? p := by
  induction l1 with
  | nil => rfl
  | cons a t ih =>
    by_cases ha : p a = true
    · rw [List.find?_cons_of_pos _ ha] at h
      exact absurd h (by simp)
    · simp only [Bool.not_eq_true] at ha
      rw [List.find?_cons_of_neg _ (by simp [ha])] at h
      rw [List.cons_append, List.find?_cons_of_neg _ (by simp [ha])]
      exact ih h

lemma roundPrice_94731 : roundPrice 94731 = 94731 := by
  norm_num [roundPrice, round_eq]

lemma roundPrice_94230 : roundPrice 94230 = 94230 := by
  norm_num [roundPrice, round_eq]

lemma roundPrice_101567 : roundPrice 101.567 = 101.57 := by
  norm_num [roundPrice, round_eq]

lemma getPrice_wDB : getPriceFromDb wDB = some ⟨94731, "t1"⟩ := by
  simp [getPriceFromDb, wDB, wRow, roundPrice_94731]

lemma getPrice_wDBEq : getPriceFromDb wDBEq = some ⟨94230, "t1"⟩ := by
  simp [getPriceFromDb, wDBEq, wRowEq, roundPrice_94230]

/-!  ## Claims  -/

/-- **C4** — for every guess whose status is PENDING, when fewer than 60
seconds have elapsed since submission, `tryResolve` returns PENDING with
reason TIMER and `secondsLeft = 60 −` (whole seconds elapsed), an integer
strictly greater than 0, regardless of the current price or its
availability, and performs no write. -/
theorem tryResolve_timer_pending
    (db : DB) (now : ℤ) (gid : String) (g : Guess)
    (hg : findGuess db gid = some g)
    (hpend : g.status = GuessStatus.pending)
    (h0 : g.guessed_at ≤ now)
    (ht : now - g.guessed_at < 60000) :
    tryResolve db now gid = Except.ok
      ({ id := g.id, status := GuessStatus.pending, outcome := none, score := none,
         currentPrice := none, reason := some PendingReason.timer,
         secondsLeft := some (ROUND_SECONDS - (now - g.guessed_at).fdiv 1000) }, db) ∧
    0 < ROUND_SECONDS - (now - g.guessed_at).fdiv 1000 := by
  have helapsed : (now - g.guessed_at).fdiv 1000 < ROUND_SECONDS :=
    (fdiv1000_lt_iff _).mpr ht
  constructor
  · simp only [tryResolve, hg, hpend]
    simp [helapsed]
  · exact secondsLeft_pos (by omega) ht

/-- Witness for C4: 30 seconds elapsed on the concrete database. -/
theorem tryResolve_timer_pending_witness :
    tryResolve wDB 30000 "g1" = Except.ok
      ({ id := wGuessUp.id, status := GuessStatus.pending, outcome := none,
         score := none, currentPrice := none, reason := some PendingReason.timer,
         secondsLeft := some (ROUND_SECONDS - ((30000 : ℤ) - wGuessUp.guessed_at).fdiv 1000) },
       wDB) ∧
    0 < ROUND_SECONDS - ((30000 : ℤ) - wGuessUp.guessed_at).fdiv 1000 :=
  tryResolve_timer_pending wDB 30000 "g1" wGuessUp (by decide) (by decide)
    (by decide) (by decide)

/-- **C1** — for every PENDING guess, when at least 60 seconds have elapsed
and the current (post-rounding) price differs from the entry price,
`tryResolve` resolves it: the outcome is CORRECT exactly when the direction
matches the price movement (RISE and current > entry, or FALL and current
< entry), it persists status RESOLVED with the outcome, resolution price
and resolution timestamp, applies a score delta of +1 (CORRECT) or −1
(WRONG) to the owning player, and returns the player's new total score. -/
theorem tryResolve_resolves_and_scores
    (db : DB) (now : ℤ) (gid : String) (g : Guess) (pp : PricePayload) (pl : Player)
    (hg : findGuess db gid = some g)
    (hpend : g.status = GuessStatus.pending)
    (ht : 60000 ≤ now - g.guessed_at)
    (hp : getPriceFromDb db = some pp)
    (hne : pp.usd ≠ g.price_at_guess)
    (hpl : findPlayer db g.player_id = some pl) :
    ∃ (o : GuessOutcome) (db2 : DB),
      tryResolve db now gid = Except.ok
        ({ id := g.id, status := GuessStatus.resolved, outcome := some o,
           score := some (pl.score + scoreDelta o), currentPrice := some pp.usd,
           reason := none, secondsLeft := none }, db2) ∧
      (o = GuessOutcome.correct ↔
        (g.direction = Direction.up ∧ g.price_at_guess < pp.usd) ∨
        (g.direction = Direction.down ∧ pp.usd < g.price_at_guess)) ∧
      findGuess db2 gid = some
        { g with status := GuessStatus.resolved, outcome := some o,
                 price_at_resolve := some pp.usd, resolved_at := some now } ∧
      findPlayer db2 g.player_id = some
        { pl with score := pl.score + scoreDelta o, last_seen := now } ∧
      db2.price_feed = db.price_feed := by
  have hnt : ¬((now - g.guessed_at).fdiv 1000 < ROUND_SECONDS) := by
    show ¬((now - g.guessed_at).fdiv 1000 < 60)
    rw [fdiv1000_lt_iff]
    omega
  have hres : g.status ≠ GuessStatus.resolved := by
    rw [hpend]; intro h; cases h
  have hprop : ∀ (o : GuessOutcome),
      tryResolve db now gid = Except.ok
        ({ id := g.id, status := GuessStatus.resolved, outcome := some o,
           score := some (pl.score + scoreDelta o), currentPrice := some pp.usd,
           reason := none, secondsLeft := none },
         applyScoreDelta (updateGuessResolved db gid o pp.usd now)
           g.player_id (scoreDelta o) now) →
      findGuess (applyScoreDelta (updateGuessResolved db gid o pp.usd now)
          g.player_id (scoreDelta o) now) gid = some
        { g with status := GuessStatus.resolved, outcome := some o,
                 price_at_resolve := some pp.usd, resolved_at := some now } ∧
      findPlayer (applyScoreDelta (updateGuessResolved db gid o pp.usd now)
          g.player_id (scoreDelta o) now) g.player_id = some
        { pl with score := pl.score + scoreDelta o, last_seen := now } ∧
      (applyScoreDelta (updateGuessResolved db gid o pp.usd now)
          g.player_id (scoreDelta o) now).price_feed = db.price_feed := by
    intro o _
    refine ⟨?_, ?_, rfl⟩
    · have h1 : findGuess (applyScoreDelta (updateGuessResolved db gid o pp.usd now)
          g.player_id (scoreDelta o) now) gid =
          findGuess (updateGuessResolved db gid o pp.usd now) gid := rfl
      rw [h1, findGuess_updateGuessResolved, hg]
      rfl
    · rw [findPlayer_applyScoreDelta]
      have h2 : findPlayer (updateGuessResolved db gid o pp.usd now) g.player_id =
          findPlayer db g.player_id := rfl
      rw [h2, hpl]
      rfl
  have hscoreD : ∀ (o : GuessOutcome) (d : ℤ),
      (findPlayer (applyScoreDelta (updateGuessResolved db gid o pp.usd now)
          g.player_id d now) g.player_id).map Player.score =
        some (pl.score + d) := by
    intro o d
    rw [findPlayer_applyScoreDelta]
    have h2 : findPlayer (updateGuessResolved db gid o pp.usd now) g.player_id =
        findPlayer db g.player_id := rfl
    rw [h2, hpl]
    rfl
  by_cases hb : ((g.direction == Direction.up && decide (g.price_at_guess < pp.usd))
      || (g.direction == Direction.down && decide (pp.usd < g.price_at_guess))) = true
  · have heq : tryResolve db now gid = Except.ok
        ({ id := g.id, status := GuessStatus.resolved,
           outcome := some GuessOutcome.correct,
           score := some (pl.score + scoreDelta GuessOutcome.correct),
           currentPrice := some pp.usd, reason := none, secondsLeft := none },
         applyScoreDelta (updateGuessResolved db gid GuessOutcome.correct pp.usd now)
           g.player_id (scoreDelta GuessOutcome.correct) now) := by
      simp only [tryResolve, hg, hres, if_false, hnt, hp]
      rw [if_neg hne]
      simp only [hb, if_true]
      rw [hscoreD GuessOutcome.correct 1]
      rfl
    rcases hprop GuessOutcome.correct heq with ⟨h3, h4, h5⟩
    refine ⟨GuessOutcome.correct, _, heq, ?_, h3, h4, h5⟩
    simp only [Bool.or_eq_true, Bool.and_eq_true, beq_iff_eq, decide_eq_true_eq] at hb
    simpa using hb
  · have hb2 : ((g.direction == Direction.up && decide (g.price_at_guess < pp.usd))
        || (g.direction == Direction.down && decide (pp.usd < g.price_at_guess))) = false := by
      simpa using hb
    have heq : tryResolve db now gid = Except.ok
        ({ id := g.id, status := GuessStatus.resolved,
           outcome := some GuessOutcome.wrong,
           score := some (pl.score + scoreDelta GuessOutcome.wrong),
           currentPrice := some pp.usd, reason := none, secondsLeft := none },
         applyScoreDelta (updateGuessResolved db gid GuessOutcome.wrong pp.usd now)
           g.player_id (scoreDelta GuessOutcome.wrong) now) := by
      simp only [tryResolve, hg, hres, if_false, hnt, hp]
      rw [if_neg hne]
      simp only [hb2, Bool.false_eq_true, if_false]
      rw [hscoreD GuessOutcome.wrong (-1)]
      rfl
    rcases hprop GuessOutcome.wrong heq with ⟨h3, h4, h5⟩
    refine ⟨GuessOutcome.wrong, _, heq, ?_, h3, h4, h5⟩
    simp only [Bool.or_eq_true, Bool.and_eq_true, beq_iff_eq, decide_eq_true_eq] at hb
    constructor
    · intro h
      cases h
    · intro h
      exact absurd h hb

/-- Witness for C1: entry 94230, direction RISE, 61 s elapsed, current
price 94731 — resolves CORRECT and the score moves from 3 to 4. -/
theorem tryResolve_resolves_and_scores_witness :
    ∃ (o : GuessOutcome) (db2 : DB),
      tryResolve wDB 61000 "g1" = Except.ok
        ({ id := wGuessUp.id, status := GuessStatus.resolved, outcome := some o,
           score := some (wPlayer.score + scoreDelta o), currentPrice := some (94731 : ℚ),
           reason := none, secondsLeft := none }, db2) ∧
      (o = GuessOutcome.correct ↔
        (wGuessUp.direction = Direction.up ∧ wGuessUp.price_at_guess < (94731 : ℚ)) ∨
        (wGuessUp.direction = Direction.down ∧ (94731 : ℚ) < wGuessUp.price_at_guess)) ∧
      findGuess db2 "g1" = some
        { wGuessUp with status := GuessStatus.resolved, outcome := some o,
                        price_at_resolve := some (94731 : ℚ),
                        resolved_at := some 61000 } ∧
      findPlayer db2 wGuessUp.player_id = some
        { wPlayer with score := wPlayer.score + scoreDelta o, last_seen := 61000 } ∧
      db2.price_feed = wDB.price_feed :=
  tryResolve_resolves_and_scores wDB 61000 "g1" wGuessUp ⟨94731, "t1"⟩ wPlayer
    (by decide) (by decide) (by decide) getPrice_wDB (by decide) (by decide)

/-- **C2** — `tryResolve` is idempotent on a resolved guess: it returns the
stored outcome, the stored resolution price and the owning player's current
score, performs no write (the database after the call is the database
before it), and two successive calls — at any two times — return identical
responses with the score unchanged. -/
theorem tryResolve_idempotent_on_resolved
    (db : DB) (gid : String) (g : Guess) (now now2 : ℤ)
    (hg : findGuess db gid = some g)
    (hres : g.status = GuessStatus.resolved) :
    ∃ r : GuessStatusResponse,
      tryResolve db now gid = Except.ok (r, db) ∧
      tryResolve db now2 gid = Except.ok (r, db) ∧
      r.status = GuessStatus.resolved ∧
      r.outcome = g.outcome ∧
      r.currentPrice = g.price_at_resolve ∧
      r.score = (findPlayer db g.player_id).map Player.score := by
  refine ⟨{ id := g.id, status := GuessStatus.resolved, outcome := g.outcome,
            score := (findPlayer db g.player_id).map Player.score,
            currentPrice := g.price_at_resolve, reason := none,
            secondsLeft := none },
          ?_, ?_, rfl, rfl, rfl, rfl⟩ <;>
  simp only [tryResolve, hg, hres, if_true]

/-- Witness for C2: a resolved guess queried at two different times. -/
theorem tryResolve_idempotent_on_resolved_witness :
    ∃ r : GuessStatusResponse,
      tryResolve wDBResolved 0 "g2" = Except.ok (r, wDBResolved) ∧
      tryResolve wDBResolved 999999 "g2" = Except.ok (r, wDBResolved) ∧
      r.status = GuessStatus.resolved ∧
      r.outcome = wGuessResolved.outcome ∧
      r.currentPrice = wGuessResolved.price_at_resolve ∧
      r.score = (findPlayer wDBResolved wGuessResolved.player_id).map Player.score :=
  tryResolve_idempotent_on_resolved wDBResolved "g2" wGuessResolved 0 999999
    (by decide) (by decide)

/-- **C3** — for a PENDING guess with the timer elapsed and the current
(post-normalization) price equal to the entry price, `tryResolve` returns
PENDING with reason AWAITING_PRICE_CHANGE and performs no write; and for
as long as every read of the Price Store keeps returning that price, the
guess never resolves no matter how much additional time passes: polling at
any list of later times leaves the database — and hence the guess's
PENDING status — unchanged. -/
theorem tryResolve_awaiting_price_change_forever
    (db : DB) (now : ℤ) (gid : String) (g : Guess) (pp : PricePayload)
    (hg : findGuess db gid = some g)
    (hpend : g.status = GuessStatus.pending)
    (ht : 60000 ≤ now - g.guessed_at)
    (hp : getPriceFromDb db = some pp)
    (heq : pp.usd = g.price_at_guess) :
    tryResolve db now gid = Except.ok
      ({ id := g.id, status := GuessStatus.pending, outcome := none, score := none,
         currentPrice := none, reason := some PendingReason.awaiting_price_change,
         secondsLeft := none }, db) ∧
    (∀ times : List ℤ, resolveMany db gid times = db) ∧
    (∀ times : List ℤ, ∃ g2 : Guess,
      findGuess (resolveMany db gid times) gid = some g2 ∧
      g2.status = GuessStatus.pending) := by
  have hresneq : g.status ≠ GuessStatus.resolved := by
    rw [hpend]; intro h; cases h
  have hnt : ¬((now - g.guessed_at).fdiv 1000 < ROUND_SECONDS) := by
    show ¬((now - g.guessed_at).fdiv 1000 < 60)
    rw [fdiv1000_lt_iff]
    omega
  have hstep : ∀ t : ℤ, ∃ r, tryResolve db t gid = Except.ok (r, db) := by
    intro t
    by_cases htt : (t - g.guessed_at).fdiv 1000 < ROUND_SECONDS
    · refine ⟨{ id := g.id, status := GuessStatus.pending, outcome := none,
                score := none, currentPrice := none,
                reason := some PendingReason.timer,
                secondsLeft := some (ROUND_SECONDS - (t - g.guessed_at).fdiv 1000) },
              ?_⟩
      simp only [tryResolve, hg, hresneq, if_false, htt, if_true]
    · refine ⟨{ id := g.id, status := GuessStatus.pending, outcome := none,
                score := none, currentPrice := none,
                reason := some PendingReason.awaiting_price_change,
                secondsLeft := none },
              ?_⟩
      simp only [tryResolve, hg, hresneq, if_false, htt, hp]
      rw [if_pos heq]
  have hmany : ∀ times : List ℤ, resolveMany db gid times = db := by
    intro times
    induction times with
    | nil => rfl
    | cons t ts ih =>
      obtain ⟨r, hr⟩ := hstep t
      simp only [resolveMany, List.foldl_cons, hr] at ih ⊢
      exact ih
  refine ⟨?_, hmany, ?_⟩
  · simp only [tryResolve, hg, hresneq, if_false, hnt, hp]
    rw [if_pos heq]
  · intro times
    rw [hmany times]
    exact ⟨g, hg, hpend⟩

/-- Witness for C3: entry 94230, price still 94230 after 61 s; polling at
three later times leaves everything pending. -/
theorem tryResolve_awaiting_price_change_forever_witness :
    tryResolve wDBEq 61000 "g1" = Except.ok
      ({ id := wGuessUp.id, status := GuessStatus.pending, outcome := none,
         score := none, currentPrice := none,
         reason := some PendingReason.awaiting_price_change,
         secondsLeft := none }, wDBEq) ∧
    resolveMany wDBEq "g1" [61000, 1000000, 99999999999] = wDBEq := by
  have h := tryResolve_awaiting_price_change_forever wDBEq 61000 "g1" wGuessUp
    ⟨94230, "t1"⟩ (by decide) (by decide) (by decide) getPrice_wDBEq (by decide)
  exact ⟨h.1, h.2.1 [61000, 1000000, 99999999999]⟩

/-- **C10** — whenever `tryResolve` answers with status PENDING (reason
TIMER, PRICE_UNAVAILABLE or AWAITING_PRICE_CHANGE), no stored state is
mutated: the database after the call — guesses, players and the Price
Store alike — is exactly the database before it. -/
theorem tryResolve_pending_no_write
    (db : DB) (now : ℤ) (gid : String) (resp : GuessStatusResponse) (db2 : DB)
    (h : tryResolve db now gid = Except.ok (resp, db2))
    (hpend : resp.status = GuessStatus.pending) :
    db2 = db := by
  unfold tryResolve at h
  cases hg : findGuess db gid with
  | none => rw [hg] at h; exact absurd h (by simp)
  | some g =>
    rw [hg] at h
    by_cases hst : g.status = GuessStatus.resolved
    · simp only [hst, if_true] at h
      exact (Prod.mk.injEq _ _ _ _ ▸ (Except.ok.injEq _ _ ▸ h)).2.symm ▸ rfl
    · simp only [hst, if_false] at h
      by_cases htimer : (now - g.guessed_at).fdiv 1000 < ROUND_SECONDS
      · simp only [htimer, if_true] at h
        cases h
        rfl
      · simp only [htimer, if_false] at h
        cases hp : getPriceFromDb db with
        | none =>
          rw [hp] at h
          cases h
          rfl
        | some dbPrice =>
          rw [hp] at h
          by_cases heq : dbPrice.usd = g.price_at_guess
          · simp only [heq, if_true] at h
            cases h
            rfl
          · simp only [heq, if_false] at h
            cases h
            simp at hpend

/-- Witness for C10: the timer-pending call on the concrete database
leaves it unchanged. -/
theorem tryResolve_pending_no_write_witness :
    tryResolve wDB 30000 "g1" = Except.ok
      ({ id := "g1", status := GuessStatus.pending, outcome := none, score := none,
         currentPrice := none, reason := some PendingReason.timer,
         secondsLeft := some 30 }, wDB) ∧
    wDB = wDB :=
  ⟨rfl,
   tryResolve_pending_no_write wDB 30000 "g1"
     { id := "g1", status := GuessStatus.pending, outcome := none, score := none,
       currentPrice := none, reason := some PendingReason.timer,
       secondsLeft := some 30 } wDB rfl (by decide)⟩

/-- **C5** — `submit(playerId, direction)`: with a PENDING guess already
on file it fails with GuessInProgress carrying that guess's id and writes
nothing; with no price sample it fails with PriceUnavailable and creates
nothing; otherwise it appends exactly one new PENDING guess row whose
entry price is the server-held Price Store value at that instant (the
request carries no price at all), and afterwards the player owns exactly
one PENDING row. -/
theorem createGuess_one_pending_and_server_price
    (db : DB) (pid : String) (d : Direction) (now : ℤ) (fid : String)
    (hpid : pid ≠ "") :
    (∀ g0, findPendingGuess db pid = some g0 →
      createGuess db pid (dirString d) now fid =
        (CreateGuessResult.guessInProgress g0.id, db)) ∧
    (findPendingGuess db pid = none → getPriceFromDb db = none →
      createGuess db pid (dirString d) now fid =
        (CreateGuessResult.priceUnavailable, db)) ∧
    (∀ pp, findPendingGuess db pid = none → getPriceFromDb db = some pp →
      createGuess db pid (dirString d) now fid =
        (CreateGuessResult.created ⟨fid, pp.usd, now⟩,
         { db with guesses := db.guesses ++
            [{ id := fid, player_id := pid, direction := d,
               price_at_guess := pp.usd, guessed_at := now, resolved_at := none,
               price_at_resolve := none, outcome := none,
               status := GuessStatus.pending }] }) ∧
      pendingCount
        { db with guesses := db.guesses ++
            [{ id := fid, player_id := pid, direction := d,
               price_at_guess := pp.usd, guessed_at := now, resolved_at := none,
               price_at_resolve := none, outcome := none,
               status := GuessStatus.pending }] } pid = 1) := by
  refine ⟨?_, ?_, ?_⟩
  · intro g0 hg0
    simp only [createGuess, hpid, if_false, parseDirection_dirString, hg0]
  · intro hnone hpnone
    simp only [createGuess, hpid, if_false, parseDirection_dirString, hnone, hpnone]
  · intro pp hnone hpsome
    constructor
    · simp only [createGuess, hpid, if_false, parseDirection_dirString, hnone, hpsome]
    · have hfilter : db.guesses.filter
          (fun g => g.player_id == pid && g.status == GuessStatus.pending) = [] := by
        rw [List.filter_eq_nil_iff]
        intro a ha hpa
        have := List.find?_eq_none.mp hnone a ha
        exact this hpa
      simp only [pendingCount, List.filter_append, hfilter, List.nil_append]
      simp

/-- Witness for C5: player `p2` (no pending guess) submits `up` against a
store holding 94731 — exactly one PENDING row appears, at entry 94731. -/
theorem createGuess_one_pending_and_server_price_witness :
    createGuess wDB "p2" (dirString Direction.up) 5 "g9" =
      (CreateGuessResult.created ⟨"g9", (94731 : ℚ), 5⟩, wDBAfterCreate) ∧
    pendingCount wDBAfterCreate "p2" = 1 :=
  (createGuess_one_pending_and_server_price wDB "p2" Direction.up 5 "g9"
      (by decide)).2.2 ⟨94731, "t1"⟩ (by decide) getPrice_wDB

/-- **C6 (amended)** — `admitOrRefresh(playerId)` is rejected with
AtCapacity exactly when the number of *other* players the query counts as
active — players other than the requester whose stored `last_seen` string
the byte-wise text comparison places after the bound ISO cutoff string,
i.e. whose last-seen UTC calendar day is strictly later than that of
`now − 24 h` (equivalently: seen since UTC midnight of the current day) —
is at or above the configured maximum (that count and the maximum are what
the rejection reports); otherwise it creates the player with score 0 if
absent or refreshes `last_seen`, and returns the current score plus any
PENDING guess.  Consequently the (N+1)-th distinct player active in this
sense is rejected at max = N, and an already-active player refreshing is
admitted whenever the others active in this sense number fewer than N. -/
theorem createOrUpdatePlayer_capacity
    (db : DB) (pid : String) (maxPlayers now : ℤ)
    (hpid : pid ≠ "") :
    ((activeOthersCount db pid now : ℤ) ≥ maxPlayers →
      createOrUpdatePlayer db pid maxPlayers now =
        (AdmitResult.atCapacity (activeOthersCount db pid now) maxPlayers, db)) ∧
    ((activeOthersCount db pid now : ℤ) < maxPlayers →
      ∃ pl : Player,
        findPlayer (upsertPlayer db pid now) pid = some pl ∧
        createOrUpdatePlayer db pid maxPlayers now =
          (AdmitResult.ok
            ⟨pl.id, pl.score, findPendingGuess (upsertPlayer db pid now) pid⟩,
           upsertPlayer db pid now) ∧
        pl.last_seen = now ∧
        (findPlayer db pid = none → pl = ⟨pid, 0, now, now⟩) ∧
        (∀ pl0, findPlayer db pid = some pl0 →
          pl = { pl0 with last_seen := now })) := by
  constructor
  · intro hge
    simp only [createOrUpdatePlayer, hpid, if_false]
    rw [if_pos hge]
  · intro hlt
    have hfound : ∃ pl : Player,
        findPlayer (upsertPlayer db pid now) pid = some pl ∧
        pl.last_seen = now ∧
        (findPlayer db pid = none → pl = ⟨pid, 0, now, now⟩) ∧
        (∀ pl0, findPlayer db pid = some pl0 →
          pl = { pl0 with last_seen := now }) := by
      cases hfp : findPlayer db pid with
      | none =>
        have hfp2 : db.players.find? (fun p => p.id == pid) = none := hfp
        refine ⟨⟨pid, 0, now, now⟩, ?_, rfl, fun _ => rfl, ?_⟩
        · simp only [upsertPlayer, findPlayer, hfp2, Option.isSome_none,
            Bool.false_eq_true, if_false]
          rw [find?_append_of_none db.players _ _ hfp2]
          simp [List.find?_cons]
        · intro pl0 h0
          exact absurd h0 (by simp)
      | some pl0 =>
        have hfp2 : db.players.find? (fun p => p.id == pid) = some pl0 := hfp
        refine ⟨{ pl0 with last_seen := now }, ?_, rfl, ?_, ?_⟩
        · simp only [upsertPlayer, findPlayer, hfp2, Option.isSome_some, if_true]
          rw [find?_map_ite db.players (fun p => p.id == pid)
            (fun p => { p with last_seen := now }) (fun _ => rfl)]
          rw [hfp2]
          rfl
        · intro h0
          exact absurd h0 (by simp)
        · intro pl1 h1
          injection h1 with h2
          rw [h2]
    obtain ⟨pl, hpl, hseen, hnone, hsome⟩ := hfound
    refine ⟨pl, hpl, ?_, hseen, hnone, hsome⟩
    simp only [createOrUpdatePlayer, hpid, if_false]
    rw [if_neg (by omega), hpl]
    rfl

/-- Witness for C6 (amended): on `wDB`, player `p1` (already present,
nobody else active) refreshes at max = 100 and is admitted. -/
theorem createOrUpdatePlayer_capacity_witness :
    ∃ pl : Player,
      findPlayer (upsertPlayer wDB "p1" 7000) "p1" = some pl ∧
      createOrUpdatePlayer wDB "p1" 100 7000 =
        (AdmitResult.ok
          ⟨pl.id, pl.score, findPendingGuess (upsertPlayer wDB "p1" 7000) "p1"⟩,
         upsertPlayer wDB "p1" 7000) ∧
      pl.last_seen = 7000 ∧
      (findPlayer wDB "p1" = none → pl = ⟨"p1", 0, 7000, 7000⟩) ∧
      (∀ pl0, findPlayer wDB "p1" = some pl0 →
        pl = { pl0 with last_seen := 7000 }) :=
  (createOrUpdatePlayer_capacity wDB "p1" 100 7000 (by decide)).2 (by decide)

/-- Counterexample to C6 as stated, in both directions.  First: with
max = 1 and two players last seen at the call instant (within any window),
the already-active requester `p1` — whom the claim says must not be
rejected — gets AtCapacity, because the code counts the *other* active
player against the maximum.  Second: at 01:00 UTC of day 1 (90000000 ms),
player `q1` was last seen two hours earlier at 23:00 UTC of day 0
(82800000 ms) — inside the rolling 24 h window, so with max = 1 the claim
mandates AtCapacity for the fresh requester `p9` — yet the code admits
`p9`, because the stored `datetime('now')` string of day 0 sorts below
the ISO cutoff string byte-wise (space 0x20 < `'T'` 0x54 on the shared
date), so `q1` is not counted as active. -/
theorem createOrUpdatePlayer_rejects_active_requester :
    (((1000 : ℤ) - ACTIVE_WINDOW_HOURS * 3600 * 1000 < 1000) ∧
     findPlayer cDBFull "p1" = some ⟨"p1", 0, 1000, 0⟩ ∧
     (createOrUpdatePlayer cDBFull "p1" 1 1000).1 = AdmitResult.atCapacity 1 1) ∧
    (((90000000 : ℤ) - ACTIVE_WINDOW_HOURS * 3600 * 1000 < 82800000) ∧
     findPlayer cDBMidnight "q1" = some ⟨"q1", 0, 82800000, 0⟩ ∧
     findPlayer cDBMidnight "p9" = none ∧
     (createOrUpdatePlayer cDBMidnight "p9" 1 90000000).1 =
       AdmitResult.ok ⟨"p9", 0, none⟩) := by
  refine ⟨⟨by decide, by decide, by decide⟩,
          by decide, by decide, by decide, by decide⟩

/-- When the guess row is found, `tryResolve` never throws: every branch
returns a response. -/
lemma tryResolve_ok_of_found (db : DB) (now : ℤ) (gid : String) (g : Guess)
    (hg : findGuess db gid = some g) :
    ∀ e : Unit, tryResolve db now gid ≠ Except.error e := by
  intro e h
  by_cases hres : g.status = GuessStatus.resolved
  · simp [tryResolve, hg, hres] at h
  · by_cases htimer : (now - g.guessed_at).fdiv 1000 < ROUND_SECONDS
    · simp [tryResolve, hg, hres, htimer] at h
    · cases hp : getPriceFromDb db with
      | none => simp [tryResolve, hg, hres, htimer, hp] at h
      | some dbPrice =>
        by_cases heqp : dbPrice.usd = g.price_at_guess
        · simp [tryResolve, hg, hres, htimer, hp, heqp] at h
        · simp [tryResolve, hg, hres, htimer, hp, heqp] at h

/-- **C7 (amended)** — the guess-status handler answers 404 whenever the
`try` block throws, whatever the exception: both for an unknown guess id
and for a persistence-layer failure during resolution (the `catch` is
indiscriminate).  It answers 200 otherwise and never any other code — in
particular persistence errors inside this handler are reported as 404,
not 500. -/
theorem getGuessStatus_maps_all_failures_to_404
    (db : DB) (now : ℤ) (gid : String) (dbFault : Bool) :
    (getGuessStatusCode db now gid dbFault = 404 ↔
      (dbFault = true ∨ findGuess db gid = none)) ∧
    (getGuessStatusCode db now gid dbFault = 200 ∨
      getGuessStatusCode db now gid dbFault = 404) := by
  cases dbFault with
  | true =>
    constructor
    · simp [getGuessStatusCode, tryResolveExc]
    · right
      simp [getGuessStatusCode, tryResolveExc]
  | false =>
    cases hfg : findGuess db gid with
    | none =>
      constructor
      · simp [getGuessStatusCode, tryResolveExc, tryResolve, hfg]
      · right
        simp [getGuessStatusCode, tryResolveExc, tryResolve, hfg]
    | some g =>
      have hok : ∀ e : Unit, tryResolve db now gid ≠ Except.error e :=
        tryResolve_ok_of_found db now gid g hfg
      cases htr : tryResolve db now gid with
      | error e => exact absurd htr (hok e)
      | ok x =>
        constructor
        · simp [getGuessStatusCode, tryResolveExc, htr, hfg]
        · left
          simp [getGuessStatusCode, tryResolveExc, htr]

/-- Counterexample to C7 as stated: a persistence-layer failure while
resolving an existing guess is reported as 404 — the claim requires 500
for persistence errors and 404 only for unknown ids. -/
theorem getGuessStatus_dbError_counterexample :
    (findGuess wDB "g1").isSome = true ∧
    getGuessStatusCode wDB 61000 "g1" true = 404 := by
  refine ⟨by decide, rfl⟩

/-- **C8** — one fetch attempt tries the sources in order (Kraken,
Binance, CoinGecko); a source that fails — network error, malformed
payload or non-positive value — yields nothing and the next source is
tried; the first source yielding a strictly positive price determines the
result.  When every source fails the whole attempt fails and the iteration
leaves the Price Store exactly as it was; and the scheduled run processes
the remaining iterations regardless of what the current one did, so a
failed iteration never aborts the ones after it. -/
theorem priceFetcher_fallback_and_isolation :
    (∀ (k b g : SourceOutcome) (p : ℚ), fetchBtcPrice k b g = Except.ok p ↔
      (sourceResult k = some p ∨
       (sourceResult k = none ∧ sourceResult b = some p) ∨
       (sourceResult k = none ∧ sourceResult b = none ∧
        sourceResult g = some p))) ∧
    (∀ (o : SourceOutcome) (p : ℚ), sourceResult o = some p → 0 < p) ∧
    (∀ k b g : SourceOutcome, fetchBtcPrice k b g = Except.error () ↔
      (sourceResult k = none ∧ sourceResult b = none ∧
       sourceResult g = none)) ∧
    (∀ (db : DB) (it : CronIteration),
      fetchBtcPrice it.kraken it.binance it.gecko = Except.error () →
      runIteration db it = db) ∧
    (∀ (db : DB) (it : CronIteration) (its : List CronIteration),
      runPriceFetcher db (it :: its) = runPriceFetcher (runIteration db it) its) := by
  refine ⟨?_, ?_, ?_, ?_, ?_⟩
  · intro k b g p
    cases hk : sourceResult k with
    | some pk => simp [fetchBtcPrice, hk]
    | none =>
      cases hb : sourceResult b with
      | some pb => simp [fetchBtcPrice, hk, hb]
      | none =>
        cases hg : sourceResult g with
        | some pg => simp [fetchBtcPrice, hk, hb, hg]
        | none => simp [fetchBtcPrice, hk, hb, hg]
  · intro o p h
    cases o with
    | fail => exact absurd h (by simp [sourceResult])
    | value q =>
      by_cases hq : 0 < q
      · simp only [sourceResult, hq, if_true, Option.some.injEq] at h
        rw [← h]
        exact hq
      · simp [sourceResult, hq] at h
  · intro k b g
    cases hk : sourceResult k with
    | some pk => simp [fetchBtcPrice, hk]
    | none =>
      cases hb : sourceResult b with
      | some pb => simp [fetchBtcPrice, hk, hb]
      | none =>
        cases hg : sourceResult g with
        | some pg => simp [fetchBtcPrice, hk, hb, hg]
        | none => simp [fetchBtcPrice, hk, hb, hg]
  · intro db it hfail
    simp [runIteration, hfail]
  · intro db it its
    rfl

/-- Witness for C8: Kraken down, Binance serving 100 — the attempt returns
100; an all-sources-down iteration leaves the store untouched. -/
theorem priceFetcher_fallback_and_isolation_witness :
    fetchBtcPrice SourceOutcome.fail (SourceOutcome.value 100) SourceOutcome.fail =
      Except.ok 100 ∧
    runIteration wDB ⟨SourceOutcome.fail, SourceOutcome.fail, SourceOutcome.fail, "t9"⟩ =
      wDB := by
  have h := priceFetcher_fallback_and_isolation
  refine ⟨?_, ?_⟩
  · exact (h.1 SourceOutcome.fail (SourceOutcome.value 100) SourceOutcome.fail
      100).mpr (Or.inr (Or.inl ⟨rfl, by decide⟩))
  · exact h.2.2.2.1 wDB ⟨SourceOutcome.fail, SourceOutcome.fail, SourceOutcome.fail, "t9"⟩ rfl

/-- `roundPrice` is idempotent: a value already rounded to 2 decimals is
its own rounding. -/
lemma roundPrice_idem (q : ℚ) : roundPrice (roundPrice q) = roundPrice q := by
  unfold roundPrice
  have h : ((round (q * 100) : ℤ) : ℚ) / 100 * 100 = ((round (q * 100) : ℤ) : ℚ) :=
    div_mul_cancel₀ _ (by norm_num)
  rw [h, round_intCast]

/-- Every value the store hands out is a fixed point of `roundPrice`. -/
lemma getPriceFromDb_rounded (db : DB) (pp : PricePayload)
    (h : getPriceFromDb db = some pp) : roundPrice pp.usd = pp.usd := by
  cases hrow : db.price_feed with
  | none => simp [getPriceFromDb, hrow] at h
  | some row =>
    by_cases hz : row.usd = 0
    · simp [getPriceFromDb, hrow, hz] at h
    · simp only [getPriceFromDb, hrow, hz, if_false] at h
      injection h with h2
      rw [← h2]
      exact roundPrice_idem row.usd

/-- **C9** — every price is rounded to exactly 2 decimals at write time
into the Price Store and reading back returns exactly the rounded value
written (reading is a fixed point of the rounding — `roundPrice` is
idempotent); the entry price stored at submission is the store's value at
that instant, itself such a fixed point, so the equality test between
current price and entry price in `tryResolve` always compares two
2-decimal-normalized values. -/
theorem priceStore_rounding_normalizes
    (db : DB) (p : PricePayload) (r0 : PriceRow) (q : ℚ)
    (hrow : db.price_feed = some r0)
    (hnz : roundPrice p.usd ≠ 0) :
    getPriceFromDb (setPriceInDb db p) = some ⟨roundPrice p.usd, p.ts⟩ ∧
    roundPrice (roundPrice q) = roundPrice q ∧
    (∀ (db2 : DB) (pp : PricePayload), getPriceFromDb db2 = some pp →
      roundPrice pp.usd = pp.usd) ∧
    (∀ (db2 : DB) (pid ds : String) (now : ℤ) (fid : String)
        (res : CreateGuessResponse) (db3 : DB),
      createGuess db2 pid ds now fid = (CreateGuessResult.created res, db3) →
      roundPrice res.priceAtGuess = res.priceAtGuess ∧
      ∃ gNew : Guess, db3.guesses = db2.guesses ++ [gNew] ∧
        gNew.price_at_guess = res.priceAtGuess) := by
  refine ⟨?_, roundPrice_idem q, getPriceFromDb_rounded, ?_⟩
  · simp only [setPriceInDb, hrow, getPriceFromDb, hnz, if_false]
    rw [roundPrice_idem]
  · intro db2 pid ds now fid res db3 h
    by_cases hpid : pid = ""
    · simp [createGuess, hpid] at h
    · cases hd : parseDirection ds with
      | none => simp [createGuess, hpid, hd] at h
      | some d =>
        cases hpg : findPendingGuess db2 pid with
        | some g0 => simp [createGuess, hpid, hd, hpg] at h
        | none =>
          cases hpp : getPriceFromDb db2 with
          | none => simp [createGuess, hpid, hd, hpg, hpp] at h
          | some pp =>
            simp only [createGuess, hpid, if_false, hd, hpg, hpp,
              Prod.mk.injEq, CreateGuessResult.created.injEq] at h
            obtain ⟨hres, hdb3⟩ := h
            have hru : roundPrice pp.usd = pp.usd := getPriceFromDb_rounded db2 pp hpp
            constructor
            · rw [← hres]
              exact hru
            · refine ⟨{ id := fid, player_id := pid, direction := d,
                          price_at_guess := pp.usd, guessed_at := now,
                          resolved_at := none, price_at_resolve := none,
                          outcome := none, status := GuessStatus.pending },
                        ?_, ?_⟩
              · rw [← hdb3]
              · rw [← hres]

/-- Witness for C9: writing 101.567 stores 101.57 and reads back 101.57;
94230 is already normalized. -/
theorem priceStore_rounding_normalizes_witness :
    getPriceFromDb (setPriceInDb wDB ⟨101.567, "t2"⟩) =
      some ⟨roundPrice (101.567 : ℚ), "t2"⟩ ∧
    roundPrice (roundPrice 94230) = roundPrice 94230 := by
  have h := priceStore_rounding_normalizes wDB ⟨101.567, "t2"⟩ wRow 94230
    rfl (by rw [roundPrice_101567]; norm_num)
  exact ⟨h.1, h.2.1⟩

end HodlOrFold
